import Mathlib

/-!
Shallow embedding of `src/light_group_mixer/light_group_mixer.py` (BreakTools/LightGroupMixer).

The module manipulates a Nuke group node ("the mixer"): it discovers upstream
lightgroup layers, keeps one LightGroupGrade grader node plus one UI tab of
knobs per layer, and implements a solo/unsolo toggle driven by a free-text
"Showing" knob.

Modelling decisions (all stated next to the definitions as well):
* The mixer's observable state is `MixerState`: the knob-name dictionary of the
  mixer node (as an ordered list of knob names), the string value of its
  "Showing" knob, the internal nodes (each with name, class, `lightgroup` knob,
  input 0 and `disable` knob), the wiring of the internal Output1 node, and a
  counter supplying fresh node identities.
* Python strings are Lean `String`s; the Python methods used by the source
  (`split('.')[0]`, `split()` with no argument, `' '.join`, `startswith`,
  `endswith`, substring `in`, `list.remove`) are embedded as executable
  functions over `String.data` below.
* Python exceptions that the source lets escape are modelled with
  `Except PyError`: the `TypeError` from iterating over `None` layers and the
  `ValueError` from `list.remove`.  `nuke.message` display, and the
  `setCommand`/`setLabel` mutations of the per-group solo buttons, are UI
  effects outside the modelled state; no claim mentions them.
* The LightGroupGrade gizmo's own knob dictionary is not in the repository; the
  link-knob loop in `_link_lightgroupgrade_knobs` filters it to exactly
  `exposure`, `multiply`, `saturation`, so the created link knobs are embedded
  as those three, in the tuple order written in the source.
-/

/-- Models Python `s.split('.')[0]`: the text before the first `'.'`
(the whole string when there is no dot). -/
def beforeDot (s : String) : String := String.mk (s.data.takeWhile (fun c => c ≠ '.'))

/-- Helper for `pySplit`: walks the characters, `acc` holds the reversed
characters of the word currently being read. -/
def splitWsAux : List Char → List Char → List (List Char)
  | [], acc => if acc = [] then [] else [acc.reverse]
  | c :: cs, acc =>
    if c.isWhitespace then
      if acc = [] then splitWsAux cs [] else acc.reverse :: splitWsAux cs []
    else splitWsAux cs (c :: acc)

/-- Models Python `s.split()` (no separator): split on runs of whitespace,
dropping empty pieces. -/
def pySplit (s : String) : List String := (splitWsAux s.data []).map String.mk

/-- Models Python `" ".join(l)`. -/
def pyJoin : List String → String
  | [] => ""
  | [t] => t
  | t :: u :: rest => t ++ " " ++ pyJoin (u :: rest)

/-- Helper for `pySplitOn`: split at every non-overlapping occurrence of
`sep`, left to right.  The fuel argument (always at least the number of
remaining characters plus one) makes the recursion structural. -/
def splitOnFuel (sep : List Char) : Nat → List Char → List Char → List (List Char)
  | 0, _, acc => [acc.reverse]
  | _ + 1, [], acc => [acc.reverse]
  | fuel + 1, c :: cs, acc =>
    if sep.isPrefixOf (c :: cs) then
      acc.reverse :: splitOnFuel sep fuel ((c :: cs).drop sep.length) []
    else splitOnFuel sep fuel cs (c :: acc)

/-- Models Python `s.split(sep)` for a nonempty separator `sep`: the pieces of
`s` between non-overlapping occurrences of `sep`, scanned left to right (empty
pieces included). -/
def pySplitOn (s sep : String) : List String :=
  (splitOnFuel sep.data (s.data.length + 1) s.data []).map String.mk

/-- Models Python `s.startswith(pre)`. -/
def startsWithStr (s pre : String) : Bool := pre.data.isPrefixOf s.data

/-- Models Python `s.endswith(suf)`. -/
def endsWithStr (s suf : String) : Bool := suf.data.isSuffixOf s.data

/-- Helper for `strIn`: does `needle` occur as a contiguous sublist? -/
def containsSub (needle : List Char) : List Char → Bool
  | [] => needle.isEmpty
  | c :: rest => needle.isPrefixOf (c :: rest) || containsSub needle rest

/-- Models the Python substring test `needle in hay` on strings. -/
def strIn (needle hay : String) : Bool := containsSub needle.data hay.data

/-- `LIGHTGROUP_PREFIX` from the source (the name is shortened to a plain
Lean-friendly identifier). -/
def LIGHTGROUP_PREFIX_STR : String := "LG_"

/-- `LIGHTGROUP_GRADE_GIZMO_NAME` from the source. -/
def LIGHTGROUP_GRADE_GIZMO_NAME : String := "LightGroupGrade"

/-- Python exceptions that the source code can let escape. -/
inductive PyError where
  | typeError
  | valueError
  deriving DecidableEq

/-- A reference to a node inside the mixer group: the internal `Input1` node,
an internal node with a given identity, or no connection at all. -/
inductive NRef where
  | input1
  | node (id : Nat)
  | disconnected
  deriving DecidableEq

/-- An internal node of the mixer group (the model only ever creates
LightGroupGrade nodes, but pre-existing nodes may have any class).
`input0` is the node's input 0, `disable` its disable knob, `lightgroup` its
`lightgroup` knob. -/
@[ext]
structure GNode where
  id : Nat
  name : String
  cls : String
  lightgroup : String
  input0 : NRef
  disable : Bool
  deriving DecidableEq

/-- The modelled state of the mixer node: its knob names (the keys of
`node.knobs()`, in insertion order), the string value of the "Showing" knob,
its internal nodes, the input 0 of its internal Output1 node, and a counter
supplying fresh node identities. -/
@[ext]
structure MixerState where
  showing : String
  knobs : List String
  nodes : List GNode
  output1Input : NRef
  nextId : Nat
  deriving DecidableEq

deriving instance DecidableEq for Except

/-- `_get_all_layers`: `list(set([c.split('.')[0] for c in channels]))`.
A disconnected input makes `channels()` raise `AttributeError`; the source
then shows a message (a UI effect outside the model) and returns `None`,
modelled as the `none` case.  Python's `set` iterates in an unspecified
order; `dedup` is one concrete representative of that order, and every
claim consumes the layer list only up to membership. -/
def getAllLayers : Option (List String) → Option (List String)
  | some channels => some ((channels.map beforeDot).dedup)
  | none => none

/-- `_get_lightgroups`: one pass over `layers`, collecting the layers with the
`LG_` prefix and, among them, those whose `f"{layer}_tab_begin"` knob does not
exist yet. -/
def getLightgroups (knobs : List String) : List String → List String × List String
  | [] => ([], [])
  | layer :: rest =>
    if startsWithStr layer LIGHTGROUP_PREFIX_STR = false then getLightgroups knobs rest
    else
      ((layer :: (getLightgroups knobs rest).1),
       if knobs.contains (layer ++ "_tab_begin") then (getLightgroups knobs rest).2
       else layer :: (getLightgroups knobs rest).2)

/-- Class lookup backing `_get_next_node_to_connect_to`: the class of the node
`Output1`'s input refers to (`""` when there is no such node, which makes the
comparison against the gizmo class fail exactly like the source's
`AttributeError` / non-grader branches). -/
def classOf (s : MixerState) : NRef → String
  | NRef.node i => ((s.nodes.find? (fun n => n.id == i)).map GNode.cls).getD ""
  | NRef.input1 => ""
  | NRef.disconnected => ""

/-- `_get_next_node_to_connect_to`: `Output1.input(0)` when that input is a
LightGroupGrade node, `Input1` otherwise (including the `AttributeError`
case of a disconnected input). -/
def getNextNodeToConnectTo (s : MixerState) : NRef :=
  if classOf s s.output1Input = LIGHTGROUP_GRADE_GIZMO_NAME then s.output1Input
  else NRef.input1

/-- `_create_grader_node`: a fresh LightGroupGrade node wired to `toConnect`,
named `lightgroup.split('.')[0]`, with its `lightgroup` knob set likewise. -/
def mkGraderNode (i : Nat) (toConnect : NRef) (lightgroup : String) : GNode :=
  { id := i, name := beforeDot lightgroup, cls := LIGHTGROUP_GRADE_GIZMO_NAME,
    lightgroup := beforeDot lightgroup, input0 := toConnect, disable := false }

/-- The group-name part used by `_create_menu_tab`:
`lightgroup.split(LIGHTGROUP_PREFIX)[1].split('.')[0]`.  Index 1 is taken with
a default because every caller passes a string starting with `LG_`, for which
the split always has at least two pieces. -/
def lgName (lightgroup : String) : String :=
  beforeDot ((pySplitOn lightgroup LIGHTGROUP_PREFIX_STR).getD 1 "")

/-- The knob names `_create_menu_tab` adds for one lightgroup, in creation
order: the tab-begin knob, the solo button, the three link knobs named after
the grader node (`_link_lightgroupgrade_knobs`), and the tab-end knob. -/
def menuTabKnobs (lightgroup : String) (graderName : String) : List String :=
  [(LIGHTGROUP_PREFIX_STR ++ lgName lightgroup) ++ "_tab_begin",
   (LIGHTGROUP_PREFIX_STR ++ lgName lightgroup) ++ "_solo",
   graderName ++ "_exposure",
   graderName ++ "_multiply",
   graderName ++ "_saturation",
   (LIGHTGROUP_PREFIX_STR ++ lgName lightgroup) ++ "_tab_end"]

/-- `_add_lightgroups`: for each lightgroup create a grader node hooked to the
running connection point, add its menu tab, and finally set `Output1`'s
input 0 to the last connection point. -/
def addLightgroups : List String → NRef → MixerState → MixerState
  | [], next, s => { s with output1Input := next }
  | g :: rest, next, s =>
    addLightgroups rest (NRef.node s.nextId)
      { s with nodes := s.nodes ++ [mkGraderNode s.nextId next g],
               knobs := s.knobs ++ menuTabKnobs g (mkGraderNode s.nextId next g).name,
               nextId := s.nextId + 1 }

/-- `_get_old_unused_lightgroups`: walk the mixer's knobs; every knob that
starts with `LG_` but has no member of `all` as a prefix is removed, and when
such a knob ends in `_tab_end` the text before `_tab_` is recorded as a
lightgroup to remove.  Returns the recorded names and the surviving knobs. -/
def getOldUnusedLightgroups (knobs all : List String) : List String × List String :=
  match knobs with
  | [] => ([], [])
  | k :: rest =>
    if startsWithStr k LIGHTGROUP_PREFIX_STR = false then
      ((getOldUnusedLightgroups rest all).1, k :: (getOldUnusedLightgroups rest all).2)
    else if all.any (fun g => startsWithStr k g) then
      ((getOldUnusedLightgroups rest all).1, k :: (getOldUnusedLightgroups rest all).2)
    else if endsWithStr k "_tab_end" then
      ((pySplitOn k "_tab_").headI :: (getOldUnusedLightgroups rest all).1,
       (getOldUnusedLightgroups rest all).2)
    else
      ((getOldUnusedLightgroups rest all).1, (getOldUnusedLightgroups rest all).2)

/-- `_remove_lightgroupgrade_nodes`: delete every internal LightGroupGrade
node whose name is in `toRemove`. -/
def removeLightgroupgradeNodes (s : MixerState) (toRemove : List String) : MixerState :=
  { s with nodes :=
      s.nodes.filter (fun n => !(n.cls == LIGHTGROUP_GRADE_GIZMO_NAME
                                 && toRemove.contains n.name)) }

/-- `_set_solos`: every internal LightGroupGrade node is enabled when the
Showing value is `"All lightgroups"` or its name occurs inside the Showing
value (the source's Python substring test `in`), disabled otherwise. -/
def setSolos (s : MixerState) : MixerState :=
  { s with nodes := s.nodes.map (fun n =>
      if n.cls ≠ LIGHTGROUP_GRADE_GIZMO_NAME then n
      else if s.showing = "All lightgroups" then { n with disable := false }
      else if strIn n.name s.showing then { n with disable := false }
      else { n with disable := true }) }

/-- `solo_lightgroup`: overwrite the Showing value with the group name when it
was `"All lightgroups"` or `"Nothing"`, append `" " ++ name` otherwise, then
re-evaluate the solos.  The solo button's `setCommand`/`setLabel` calls are UI
effects outside the modelled state. -/
def soloLightgroup (lightGroupName : String) (s : MixerState) : MixerState :=
  setSolos
    (if s.showing = "All lightgroups" ∨ s.showing = "Nothing"
     then { s with showing := lightGroupName }
     else { s with showing := (s.showing ++ " ") ++ lightGroupName })

/-- `unsolo_lightgroup`: split the Showing value, `list.remove` the group name
(raising `ValueError` when it is absent — the `Except.error` case), rejoin the
rest or fall back to `"All lightgroups"`, then re-evaluate the solos.  The
solo button's `setCommand`/`setLabel` calls are UI effects outside the
modelled state. -/
def unsoloLightgroup (lightGroupName : String) (s : MixerState) :
    Except PyError MixerState :=
  if lightGroupName ∈ pySplit s.showing then
    Except.ok (setSolos
      { s with showing :=
          if (pySplit s.showing).erase lightGroupName = [] then "All lightgroups"
          else pyJoin ((pySplit s.showing).erase lightGroupName) })
  else Except.error PyError.valueError

/-- `reset_solos`: nothing to do when Showing is `"All lightgroups"`; when it
is `"Nothing"` only the Showing value is rewritten; otherwise every currently
soloed group is unsoloed in order. -/
def resetSolos (s : MixerState) : Except PyError MixerState :=
  if s.showing = "All lightgroups" then Except.ok s
  else if s.showing = "Nothing" then Except.ok { s with showing := "All lightgroups" }
  else List.foldlM (fun st g => unsoloLightgroup g st) s (pySplit s.showing)

/-- The body of `update_light_group_mixer` once the layer list is known:
discover the lightgroups, build the missing ones, drop the stale knobs and
grader nodes, and reset the solos. -/
def updateLayers (layers : List String) (s : MixerState) : Except PyError MixerState :=
  resetSolos
    (removeLightgroupgradeNodes
      { addLightgroups (getLightgroups s.knobs layers).2 (getNextNodeToConnectTo s) s with
        knobs :=
          (getOldUnusedLightgroups
            (addLightgroups (getLightgroups s.knobs layers).2 (getNextNodeToConnectTo s) s).knobs
            (getLightgroups s.knobs layers).1).2 }
      (getOldUnusedLightgroups
        (addLightgroups (getLightgroups s.knobs layers).2 (getNextNodeToConnectTo s) s).knobs
        (getLightgroups s.knobs layers).1).1)

/-- `update_light_group_mixer`: the callback entry point.  `channels` is
`none` when the mixer has no connected input, in which case `_get_all_layers`
returns `None` and the `for layer in layers` loop inside `_get_lightgroups`
raises an uncaught `TypeError`. -/
def updateLightGroupMixer (channels : Option (List String)) (s : MixerState) :
    Except PyError MixerState :=
  match getAllLayers channels with
  | none => Except.error PyError.typeError
  | some layers => updateLayers layers s

/-- The knob-survival test applied by `_get_old_unused_lightgroups` to one
knob name: a knob survives when it does not start with `LG_`, or when some
member of `all` is a prefix of it. -/
def keepKnobB (all : List String) (k : String) : Bool :=
  !(startsWithStr k LIGHTGROUP_PREFIX_STR) || all.any (fun g => startsWithStr k g)

/-- The grader nodes `_add_lightgroups` creates for a build list, starting
from identity `i` and connection point `next` (analysis-side description of
`addLightgroups`). -/
def chainNodes (i : Nat) (next : NRef) : List String → List GNode
  | [] => []
  | g :: rest => mkGraderNode i next g :: chainNodes (i + 1) (NRef.node i) rest

/-- The connection point left over after `_add_lightgroups` builds a list
(analysis-side description of `addLightgroups`). -/
def chainLast (i : Nat) (next : NRef) : List String → NRef
  | [] => next
  | _ :: rest => chainLast (i + 1) (NRef.node i) rest

/-- A throwaway node used as the default of `List.getD`. -/
def gnodeDefault : GNode :=
  { id := 0, name := "", cls := "", lightgroup := "", input0 := NRef.disconnected,
    disable := false }

/-- A mixer fresh out of the box: no lightgroup knobs, no grader nodes,
`Output1` not yet connected, Showing at its default. -/
def s0demo : MixerState :=
  { showing := "All lightgroups", knobs := [], nodes := [],
    output1Input := NRef.disconnected, nextId := 0 }

/-- The state `updateLightGroupMixer (some ["LG_key.red"]) s0demo` reaches:
one grader node and one tab for the single discovered group `LG_key`. -/
def s1demo : MixerState :=
  { showing := "All lightgroups",
    knobs := ["LG_key_tab_begin", "LG_key_solo", "LG_key_exposure", "LG_key_multiply",
              "LG_key_saturation", "LG_key_tab_end"],
    nodes := [{ id := 0, name := "LG_key", cls := "LightGroupGrade", lightgroup := "LG_key",
                input0 := NRef.input1, disable := false }],
    output1Input := NRef.node 0, nextId := 1 }

/-- A mixer holding the tab and grader node of a stale group `LG_AB` (one
whose upstream layer is gone), used against channels that only carry the
group `LG_A`. -/
def c1state : MixerState :=
  { showing := "All lightgroups",
    knobs := ["LG_AB_tab_begin", "LG_AB_solo", "LG_AB_exposure", "LG_AB_multiply",
              "LG_AB_saturation", "LG_AB_tab_end"],
    nodes := [{ id := 0, name := "LG_AB", cls := "LightGroupGrade", lightgroup := "LG_AB",
                input0 := NRef.input1, disable := false }],
    output1Input := NRef.node 0, nextId := 1 }

/-- A mixer with one disabled grader node `LG_A`, about to have the distinct
group `LG_AB` soloed. -/
def c2state : MixerState :=
  { showing := "All lightgroups",
    knobs := [],
    nodes := [{ id := 0, name := "LG_A", cls := "LightGroupGrade", lightgroup := "LG_A",
                input0 := NRef.input1, disable := true }],
    output1Input := NRef.node 0, nextId := 1 }

/-- A mixer whose Showing value already solos the two groups `a` and `b`. -/
def c7state : MixerState :=
  { showing := "a b", knobs := [], nodes := [], output1Input := NRef.disconnected,
    nextId := 0 }

/-- A mixer whose Showing value solos `a` and `b`, for exercising
`unsolo_lightgroup`. -/
def c9state : MixerState :=
  { showing := "a b", knobs := [], nodes := [], output1Input := NRef.disconnected,
    nextId := 0 }

/-- A mixer whose Showing value is `"Nothing"` while one grader node is
disabled. -/
def c10state : MixerState :=
  { showing := "Nothing",
    knobs := [],
    nodes := [{ id := 0, name := "LG_A", cls := "LightGroupGrade", lightgroup := "LG_A",
                input0 := NRef.input1, disable := true }],
    output1Input := NRef.node 0, nextId := 1 }

/-! ## Properties of the embedded Python string operations -/

/-- Two strings with the same characters are equal. -/
lemma strExt (a b : String) (h : a.data = b.data) : a = b := by
  cases a
  cases b
  cases h
  rfl

/-- A string equals `""` exactly when its character list is empty. -/
lemma eq_empty_iff_data (s : String) : s = "" ↔ s.data = [] := by
  constructor
  · intro h
    rw [h]
  · intro h
    exact strExt s "" h

/-- `startsWithStr` in terms of list prefixes. -/
lemma startsWithStr_iff (s pre : String) : startsWithStr s pre = true ↔ pre.data <+: s.data :=
  List.isPrefixOf_iff_prefix

/-- Every string starts with itself once something is appended. -/
lemma startsWithStr_append_self (l x : String) : startsWithStr (l ++ x) l = true := by
  rw [startsWithStr_iff, String.data_append]
  exact List.prefix_append l.data x.data

/-- Appending on the right preserves `startsWithStr`. -/
lemma startsWithStr_append_of (l x pre : String) (h : startsWithStr l pre = true) :
    startsWithStr (l ++ x) pre = true := by
  rw [startsWithStr_iff] at h ⊢
  rw [String.data_append]
  exact h.trans (List.prefix_append l.data x.data)

/-- `splitWsAux` on a whitespace-free tail: everything is folded into the one
pending word. -/
lemma splitWsAux_word (w : List Char) : ∀ acc : List Char,
    (∀ c ∈ w, c.isWhitespace = false) →
    splitWsAux w acc = if acc.reverse ++ w = [] then [] else [acc.reverse ++ w] := by
  induction w with
  | nil =>
    intro acc _
    simp [splitWsAux, List.reverse_eq_nil_iff]
  | cons c cs ih =>
    intro acc hw
    have hc : c.isWhitespace = false := hw c (List.mem_cons_self c cs)
    have hcs : ∀ x ∈ cs, x.isWhitespace = false :=
      fun x hx => hw x (List.mem_cons_of_mem c hx)
    simp only [splitWsAux, hc, Bool.false_eq_true, if_false]
    rw [ih (c :: acc) hcs]
    simp [List.append_assoc]

/-- `splitWsAux` across a single separating space. -/
lemma splitWsAux_space (ys xs : List Char) : ∀ acc : List Char,
    splitWsAux (xs ++ ' ' :: ys) acc = splitWsAux xs acc ++ splitWsAux ys [] := by
  induction xs with
  | nil =>
    intro acc
    by_cases hacc : acc = [] <;> simp [splitWsAux, hacc]
  | cons c cs ih =>
    intro acc
    by_cases hws : c.isWhitespace = true
    · by_cases hacc : acc = [] <;> simp [splitWsAux, hws, hacc, ih]
    · simp [splitWsAux, hws, ih]

/-- Every piece produced by `splitWsAux` is a nonempty, whitespace-free word
(provided the pending accumulator is whitespace-free). -/
lemma splitWsAux_wordOk (cs : List Char) : ∀ acc : List Char,
    (∀ c ∈ acc, c.isWhitespace = false) →
    ∀ t ∈ splitWsAux cs acc, t ≠ [] ∧ ∀ c ∈ t, c.isWhitespace = false := by
  induction cs with
  | nil =>
    intro acc hacc t ht
    simp only [splitWsAux] at ht
    split at ht
    · simp at ht
    · next hne =>
      simp only [List.mem_singleton] at ht
      subst ht
      refine ⟨by simpa [List.reverse_eq_nil_iff] using hne, ?_⟩
      intro c hc
      exact hacc c (List.mem_reverse.mp hc)
  | cons c cs ih =>
    intro acc hacc t ht
    simp only [splitWsAux] at ht
    by_cases hws : c.isWhitespace = true
    · rw [if_pos hws] at ht
      split at ht
      · exact ih [] (by simp) t ht
      · next hne =>
        rcases List.mem_cons.mp ht with h | h
        · subst h
          refine ⟨by simpa [List.reverse_eq_nil_iff] using hne, ?_⟩
          intro x hx
          exact hacc x (List.mem_reverse.mp hx)
        · exact ih [] (by simp) t h
    · rw [if_neg hws] at ht
      refine ih (c :: acc) ?_ t ht
      intro x hx
      rcases List.mem_cons.mp hx with h | h
      · subst h
        simpa using hws
      · exact hacc x h

/-- Every token of `pySplit` is nonempty and whitespace-free. -/
lemma pySplit_tokens (s t : String) (ht : t ∈ pySplit s) :
    t ≠ "" ∧ ∀ c ∈ t.data, c.isWhitespace = false := by
  unfold pySplit at ht
  rcases List.mem_map.mp ht with ⟨cs, hcs, rfl⟩
  have h := splitWsAux_wordOk s.data [] (by simp) cs hcs
  refine ⟨?_, h.2⟩
  intro hmk
  exact h.1 (congrArg String.data hmk)

/-- `pySplit` of a single nonempty whitespace-free word. -/
lemma pySplit_single (g : String) (hne : g ≠ "")
    (hws : ∀ c ∈ g.data, c.isWhitespace = false) : pySplit g = [g] := by
  unfold pySplit
  rw [splitWsAux_word g.data [] hws]
  have hd : g.data ≠ [] := fun h => hne ((eq_empty_iff_data g).mpr h)
  rw [List.reverse_nil, List.nil_append, if_neg hd]
  rfl

/-- The character list of `(t ++ " ") ++ x`. -/
lemma data_append_space (t x : String) :
    ((t ++ " ") ++ x).data = t.data ++ ' ' :: x.data := by
  rw [String.data_append, String.data_append]
  simp [List.append_assoc]

/-- `pySplit` after prepending a word and a space. -/
lemma pySplit_word_append (t x : String) (hne : t ≠ "")
    (hws : ∀ c ∈ t.data, c.isWhitespace = false) :
    pySplit ((t ++ " ") ++ x) = t :: pySplit x := by
  unfold pySplit
  rw [data_append_space, splitWsAux_space x.data t.data [], splitWsAux_word t.data [] hws]
  have hd : t.data ≠ [] := fun h => hne ((eq_empty_iff_data t).mpr h)
  rw [List.reverse_nil, List.nil_append, if_neg hd]
  rfl

/-- `pySplit` after appending a space and a word. -/
lemma pySplit_append_word (v g : String) (hne : g ≠ "")
    (hws : ∀ c ∈ g.data, c.isWhitespace = false) :
    pySplit ((v ++ " ") ++ g) = pySplit v ++ [g] := by
  unfold pySplit
  rw [data_append_space, splitWsAux_space g.data v.data [], splitWsAux_word g.data [] hws]
  have hd : g.data ≠ [] := fun h => hne ((eq_empty_iff_data g).mpr h)
  rw [List.reverse_nil, List.nil_append, if_neg hd, List.map_append]
  rfl

/-- Splitting the join of nonempty whitespace-free tokens recovers them. -/
lemma pyJoin_roundtrip : ∀ ts : List String,
    (∀ t ∈ ts, t ≠ "" ∧ ∀ c ∈ t.data, c.isWhitespace = false) →
    pySplit (pyJoin ts) = ts
  | [], _ => rfl
  | [t], h => by
    have ht := h t (List.mem_singleton.mpr rfl)
    simpa [pyJoin] using pySplit_single t ht.1 ht.2
  | t :: u :: rest, h => by
    have ht := h t (List.mem_cons_self t (u :: rest))
    have hrest : ∀ x ∈ u :: rest, x ≠ "" ∧ ∀ c ∈ x.data, c.isWhitespace = false :=
      fun x hx => h x (List.mem_cons_of_mem t hx)
    show pySplit ((t ++ " ") ++ pyJoin (u :: rest)) = t :: u :: rest
    rw [pySplit_word_append t (pyJoin (u :: rest)) ht.1 ht.2,
        pyJoin_roundtrip (u :: rest) hrest]

/-! ## Properties of the embedded mixer operations -/

/-- `_set_solos` leaves the Showing value alone. -/
lemma setSolos_showing (s : MixerState) : (setSolos s).showing = s.showing := rfl

/-- `_set_solos` leaves the knob list alone. -/
lemma setSolos_knobs (s : MixerState) : (setSolos s).knobs = s.knobs := rfl

/-- `_remove_lightgroupgrade_nodes` leaves the knob list alone. -/
lemma removeNodes_knobs (s : MixerState) (tr : List String) :
    (removeLightgroupgradeNodes s tr).knobs = s.knobs := rfl

/-- `_remove_lightgroupgrade_nodes` leaves the Showing value alone. -/
lemma removeNodes_showing (s : MixerState) (tr : List String) :
    (removeLightgroupgradeNodes s tr).showing = s.showing := rfl

/-- `_get_lightgroups` as a pair of filters over the layer list. -/
lemma getLightgroups_eq (knobs : List String) : ∀ layers : List String,
    getLightgroups knobs layers =
      (layers.filter (fun l => startsWithStr l LIGHTGROUP_PREFIX_STR),
       layers.filter (fun l => startsWithStr l LIGHTGROUP_PREFIX_STR
         && !(knobs.contains (l ++ "_tab_begin")))) := by
  intro layers
  induction layers with
  | nil => rfl
  | cons layer rest ih =>
    cases hp : startsWithStr layer LIGHTGROUP_PREFIX_STR with
    | false => simp [getLightgroups, hp, ih, List.filter_cons]
    | true =>
      cases hc : knobs.contains (layer ++ "_tab_begin") with
      | false => simp [getLightgroups, hp, hc, ih, List.filter_cons]
      | true => simp [getLightgroups, hp, hc, ih, List.filter_cons]

/-- The surviving knobs of `_get_old_unused_lightgroups` are exactly the ones
passing `keepKnobB`. -/
lemma getOldUnused_snd (all : List String) : ∀ knobs : List String,
    (getOldUnusedLightgroups knobs all).2 = knobs.filter (keepKnobB all) := by
  intro knobs
  induction knobs with
  | nil => rfl
  | cons k rest ih =>
    cases h1 : startsWithStr k LIGHTGROUP_PREFIX_STR with
    | false => simp [getOldUnusedLightgroups, keepKnobB, h1, ih, List.filter_cons]
    | true =>
      cases h2 : all.any (fun g => startsWithStr k g) with
      | false =>
        cases h3 : endsWithStr k "_tab_end" with
        | false => simp [getOldUnusedLightgroups, keepKnobB, h1, h2, h3, ih, List.filter_cons]
        | true => simp [getOldUnusedLightgroups, keepKnobB, h1, h2, h3, ih, List.filter_cons]
      | true => simp [getOldUnusedLightgroups, keepKnobB, h1, h2, ih, List.filter_cons]

/-- When every knob passes `keepKnobB`, `_get_old_unused_lightgroups` removes
nothing and records nothing. -/
lemma getOldUnused_keep_all (all : List String) : ∀ knobs : List String,
    (∀ k ∈ knobs, keepKnobB all k = true) →
    getOldUnusedLightgroups knobs all = ([], knobs) := by
  intro knobs
  induction knobs with
  | nil => intro _; rfl
  | cons k rest ih =>
    intro h
    have hk := h k (List.mem_cons_self k rest)
    have hrest := ih (fun x hx => h x (List.mem_cons_of_mem k hx))
    unfold keepKnobB at hk
    cases h1 : startsWithStr k LIGHTGROUP_PREFIX_STR with
    | false => simp [getOldUnusedLightgroups, h1, hrest]
    | true =>
      have h2 : (all.any fun g => startsWithStr k g) = true := by
        simpa [h1] using hk
      simp [getOldUnusedLightgroups, h1, h2, hrest]

/-- `chainNodes` creates one node per build entry. -/
lemma chainNodes_length : ∀ (l : List String) (i : Nat) (next : NRef),
    (chainNodes i next l).length = l.length := by
  intro l
  induction l with
  | nil => intro i next; rfl
  | cons g rest ih =>
    intro i next
    simp [chainNodes, ih]

/-- The node at position `k` of a chain: identity `i + k`, wired to the given
starting point for `k = 0` and to the previous chain node otherwise. -/
lemma chainNodes_get? : ∀ (l : List String) (i : Nat) (next : NRef) (k : Nat), k < l.length →
    ((chainNodes i next l).get? k).map GNode.input0 =
      some (match k with | 0 => next | Nat.succ j => NRef.node (i + j)) ∧
    ((chainNodes i next l).get? k).map GNode.id = some (i + k) := by
  intro l
  induction l with
  | nil =>
    intro i next k hk
    simp at hk
  | cons g rest ih =>
    intro i next k hk
    match k with
    | 0 => simp [chainNodes, mkGraderNode]
    | Nat.succ j =>
      have hj : j < rest.length := by simpa [Nat.succ_lt_succ_iff] using hk
      have h := ih (i + 1) (NRef.node i) j hj
      have hstep : (chainNodes i next (g :: rest)).get? (j + 1) =
          (chainNodes (i + 1) (NRef.node i) rest).get? j := rfl
      constructor
      · rw [hstep, h.1]
        match j with
        | 0 => simp
        | Nat.succ j' =>
          show some (NRef.node (i + 1 + j')) = some (NRef.node (i + (j' + 1)))
          have harith : i + 1 + j' = i + (j' + 1) := by omega
          rw [harith]
      · rw [hstep, h.2]
        have harith : i + 1 + j = i + (j + 1) := by omega
        rw [harith]

/-- The connection point left after building a chain. -/
lemma chainLast_eq : ∀ (l : List String) (i : Nat) (next : NRef),
    chainLast i next l =
      match l with | [] => next | _ :: _ => NRef.node (i + (l.length - 1)) := by
  intro l
  induction l with
  | nil => intro i next; rfl
  | cons g rest ih =>
    intro i next
    show chainLast (i + 1) (NRef.node i) rest = NRef.node (i + ((g :: rest).length - 1))
    rw [ih (i + 1) (NRef.node i)]
    cases rest with
    | nil => simp
    | cons u us =>
      show NRef.node (i + 1 + ((u :: us).length - 1)) = _
      have harith : i + 1 + ((u :: us).length - 1) = i + ((g :: u :: us).length - 1) := by
        simp
        omega
      rw [harith]

/-- `_add_lightgroups` in closed form: it appends the chain of new grader
nodes and their tab knobs, bumps the identity counter, and rewires
`Output1`. -/
lemma addLightgroups_eq : ∀ (l : List String) (next : NRef) (s : MixerState),
    addLightgroups l next s =
      { showing := s.showing,
        knobs := s.knobs ++ (l.map fun g => menuTabKnobs g (beforeDot g)).flatten,
        nodes := s.nodes ++ chainNodes s.nextId next l,
        output1Input := chainLast s.nextId next l,
        nextId := s.nextId + l.length } := by
  intro l
  induction l with
  | nil =>
    intro next s
    simp [addLightgroups, chainNodes, chainLast]
  | cons g rest ih =>
    intro next s
    show addLightgroups rest (NRef.node s.nextId)
        { s with nodes := s.nodes ++ [mkGraderNode s.nextId next g],
                 knobs := s.knobs ++ menuTabKnobs g (mkGraderNode s.nextId next g).name,
                 nextId := s.nextId + 1 } = _
    rw [ih]
    simp only [chainNodes, chainLast, List.map_cons, List.flatten_cons, mkGraderNode,
      List.length_cons]
    ext1 <;> simp [List.append_assoc] <;> omega

/-- One successful `unsolo_lightgroup` step during `reset_solos`, read off the
token list: the last token leaves `"All lightgroups"`, earlier tokens leave
the join of the remaining ones. -/
lemma foldl_unsolo_all : ∀ l : List String, l ≠ [] → ∀ s : MixerState,
    pySplit s.showing = l →
    ∃ s', List.foldlM (fun st g => unsoloLightgroup g st) s l = Except.ok s' ∧
      s'.showing = "All lightgroups" ∧ s'.knobs = s.knobs := by
  intro l
  induction l with
  | nil => intro h; exact absurd rfl h
  | cons t rest ih =>
    intro _ s hsplit
    have hmem : t ∈ pySplit s.showing := by
      rw [hsplit]
      exact List.mem_cons_self t rest
    have herase : (pySplit s.showing).erase t = rest := by
      rw [hsplit]
      exact List.erase_cons_head t rest
    cases rest with
    | nil =>
      have hu : unsoloLightgroup t s =
          Except.ok (setSolos { s with showing := "All lightgroups" }) := by
        unfold unsoloLightgroup
        rw [if_pos hmem, herase]
        simp
      refine ⟨setSolos { s with showing := "All lightgroups" }, ?_, rfl, rfl⟩
      simp [List.foldlM_cons, List.foldlM_nil, hu]
    | cons u us =>
      have hu : unsoloLightgroup t s =
          Except.ok (setSolos { s with showing := pyJoin (u :: us) }) := by
        unfold unsoloLightgroup
        rw [if_pos hmem, herase]
        simp
      have hsplit' : pySplit (setSolos { s with showing := pyJoin (u :: us) }).showing
          = u :: us := by
        rw [setSolos_showing]
        show pySplit (pyJoin (u :: us)) = u :: us
        refine pyJoin_roundtrip (u :: us) ?_
        intro x hx
        refine pySplit_tokens s.showing x ?_
        rw [hsplit]
        exact List.mem_cons_of_mem t hx
      obtain ⟨s', hfold, hshow, hknobs⟩ :=
        ih (by simp) (setSolos { s with showing := pyJoin (u :: us) }) hsplit'
      refine ⟨s', ?_, hshow, ?_⟩
      · rw [List.foldlM_cons, hu]
        exact hfold
      · rw [hknobs]
        rfl

/-- What `reset_solos` guarantees about the state it returns: the knob list is
untouched, and the Showing value is either `"All lightgroups"` or an unchanged
token-free string (the fall-through when the Showing value has no tokens at
all, e.g. `""`). -/
lemma resetSolos_post (s s' : MixerState) (h : resetSolos s = Except.ok s') :
    s'.knobs = s.knobs ∧
    (s'.showing = "All lightgroups" ∨
     (pySplit s'.showing = [] ∧ s'.showing ≠ "All lightgroups" ∧ s'.showing ≠ "Nothing")) := by
  unfold resetSolos at h
  by_cases h1 : s.showing = "All lightgroups"
  · rw [if_pos h1] at h
    have hs : s = s' := by injection h
    subst hs
    exact ⟨rfl, Or.inl h1⟩
  · rw [if_neg h1] at h
    by_cases h2 : s.showing = "Nothing"
    · rw [if_pos h2] at h
      have hs : { s with showing := "All lightgroups" } = s' := by injection h
      subst hs
      exact ⟨rfl, Or.inl rfl⟩
    · rw [if_neg h2] at h
      cases hsp : pySplit s.showing with
      | nil =>
        rw [hsp] at h
        simp only [List.foldlM_nil] at h
        have hs : s = s' := by injection h
        subst hs
        exact ⟨rfl, Or.inr ⟨hsp, h1, h2⟩⟩
      | cons t rest =>
        rw [hsp] at h
        obtain ⟨s'', hfold, hshow, hknobs⟩ := foldl_unsolo_all (t :: rest) (by simp) s hsp
        rw [hfold] at h
        have hs : s'' = s' := by injection h
        subst hs
        exact ⟨hknobs, Or.inl hshow⟩

/-- `_set_solos` in one statement: a grader node ends up enabled exactly when
the Showing value is `"All lightgroups"` or contains the node's name as a
substring. -/
lemma setSolos_disable (s : MixerState) :
    ∀ n ∈ (setSolos s).nodes, n.cls = LIGHTGROUP_GRADE_GIZMO_NAME →
      (n.disable = false ↔
        (s.showing = "All lightgroups" ∨ strIn n.name s.showing = true)) := by
  intro n hn hcls
  unfold setSolos at hn
  simp only [List.mem_map] at hn
  obtain ⟨m, hm, rfl⟩ := hn
  by_cases h1 : m.cls ≠ LIGHTGROUP_GRADE_GIZMO_NAME
  · rw [if_pos h1] at hcls ⊢
    exact absurd hcls h1
  · rw [if_neg h1] at hcls ⊢
    by_cases h2 : s.showing = "All lightgroups"
    · rw [if_pos h2]
      simp [h2]
    · rw [if_neg h2]
      by_cases h3 : strIn m.name s.showing = true
      · rw [if_pos h3]
        have hname : ({ m with disable := false } : GNode).name = m.name := rfl
        simp [h3, hname]
      · rw [if_neg h3]
        have hname : ({ m with disable := true } : GNode).name = m.name := rfl
        simp only [hname]
        constructor
        · intro hfalse
          exact absurd hfalse (by simp)
        · intro hor
          rcases hor with h | h
          · exact absurd h h2
          · exact absurd h h3

/-- C3: `_get_all_layers` followed by `_get_lightgroups` discovers, as its
first result, exactly the distinct before-the-first-dot layer names of the
upstream channels that carry the `LG_` prefix, and as its second result
exactly those of them with no `<layer>_tab_begin` knob yet; unprefixed layers
appear in neither list. -/
theorem c3_lightgroup_discovery (channels knobs : List String) :
    ∃ layers, getAllLayers (some channels) = some layers ∧
      (getLightgroups knobs layers).1.Nodup ∧
      (getLightgroups knobs layers).2.Nodup ∧
      (∀ x, x ∈ (getLightgroups knobs layers).1 ↔
        ((∃ c ∈ channels, beforeDot c = x) ∧
         startsWithStr x LIGHTGROUP_PREFIX_STR = true)) ∧
      (∀ x, x ∈ (getLightgroups knobs layers).2 ↔
        (x ∈ (getLightgroups knobs layers).1 ∧ (x ++ "_tab_begin") ∉ knobs)) := by
  refine ⟨(channels.map beforeDot).dedup, rfl, ?_, ?_, ?_, ?_⟩
  · rw [getLightgroups_eq]
    exact (List.nodup_dedup _).filter _
  · rw [getLightgroups_eq]
    exact (List.nodup_dedup _).filter _
  · intro x
    rw [getLightgroups_eq]
    simp [List.mem_filter, List.mem_dedup, List.mem_map]
  · intro x
    rw [getLightgroups_eq]
    simp only [List.mem_filter, List.mem_dedup, List.mem_map, Bool.and_eq_true,
      Bool.not_eq_true']
    constructor
    · intro h
      refine ⟨⟨h.1, h.2.1⟩, ?_⟩
      intro hmem
      have hc : knobs.contains (x ++ "_tab_begin") = true := (List.elem_iff).mpr hmem
      rw [h.2.2] at hc
      exact absurd hc (by simp)
    · intro h
      refine ⟨h.1.1, h.1.2, ?_⟩
      cases hc : knobs.contains (x ++ "_tab_begin") with
      | false => rfl
      | true => exact absurd ((List.elem_iff).mp hc) h.2

/-- C3 witness: on channels `["LG_key.red"]` with no knobs, `LG_key` is
discovered. -/
theorem c3_witness :
    "LG_key" ∈ (getLightgroups [] ((["LG_key.red"].map beforeDot).dedup)).1 := by
  obtain ⟨layers, hl, _, _, hall, _⟩ := c3_lightgroup_discovery ["LG_key.red"] []
  have hlay : layers = (["LG_key.red"].map beforeDot).dedup := by
    simpa [getAllLayers] using hl.symm
  subst hlay
  exact (hall "LG_key").mpr ⟨⟨"LG_key.red", by decide, by decide⟩, by decide⟩

/-- C5: `_add_lightgroups` wires the new graders into a linear chain — node
`k` of the chain takes the given starting point for `k = 0` and the previous
chain node otherwise — and leaves `Output1` on the last grader (or on the
starting point when there is nothing to build); the starting point computed by
`_get_next_node_to_connect_to` is `Output1`'s current input when that input is
a LightGroupGrade node and `Input1` otherwise. -/
theorem c5_chain_wiring (toBuild : List String) (next : NRef) (s : MixerState) :
    (addLightgroups toBuild next s).nodes.length = s.nodes.length + toBuild.length ∧
    (∀ k, k < toBuild.length →
      ((addLightgroups toBuild next s).nodes.get? (s.nodes.length + k)).map GNode.input0 =
        some (match k with | 0 => next | Nat.succ j => NRef.node (s.nextId + j)) ∧
      ((addLightgroups toBuild next s).nodes.get? (s.nodes.length + k)).map GNode.id =
        some (s.nextId + k)) ∧
    ((addLightgroups toBuild next s).output1Input =
      match toBuild with
      | [] => next
      | _ :: _ => NRef.node (s.nextId + (toBuild.length - 1))) ∧
    getNextNodeToConnectTo s =
      (if classOf s s.output1Input = LIGHTGROUP_GRADE_GIZMO_NAME then s.output1Input
       else NRef.input1) := by
  refine ⟨?_, ?_, ?_, rfl⟩
  · rw [addLightgroups_eq]
    simp [chainNodes_length]
  · intro k hk
    rw [addLightgroups_eq]
    have hlen : s.nodes.length ≤ s.nodes.length + k := Nat.le_add_right _ _
    have hget : (s.nodes ++ chainNodes s.nextId next toBuild).get? (s.nodes.length + k)
        = (chainNodes s.nextId next toBuild).get? k := by
      rw [List.get?_append_right hlen]
      congr 1
      omega
    constructor
    · show ((s.nodes ++ chainNodes s.nextId next toBuild).get?
          (s.nodes.length + k)).map GNode.input0 = _
      rw [hget]
      exact (chainNodes_get? toBuild s.nextId next k hk).1
    · show ((s.nodes ++ chainNodes s.nextId next toBuild).get?
          (s.nodes.length + k)).map GNode.id = _
      rw [hget]
      exact (chainNodes_get? toBuild s.nextId next k hk).2
  · rw [addLightgroups_eq]
    show chainLast s.nextId next toBuild = _
    rw [chainLast_eq]

/-- C5 witness: building `["LG_x", "LG_y"]` from an empty mixer, the second
grader is wired to the first. -/
theorem c5_witness :
    ((addLightgroups ["LG_x", "LG_y"] NRef.input1 s0demo).nodes.get? 1).map GNode.input0 =
      some (NRef.node 0) := by
  have h := ((c5_chain_wiring ["LG_x", "LG_y"] NRef.input1 s0demo).2.1 1 (by decide)).1
  simpa [s0demo] using h

/-- C6: `solo_lightgroup(g)` turns a Showing value of `"All lightgroups"` or
`"Nothing"` into exactly `g`, and any other value `v` into `v`, one space, and
`g`; nothing else of the solo-selection string is altered. -/
theorem c6_solo_showing_update (g : String) (s : MixerState) :
    (soloLightgroup g s).showing =
      if s.showing = "All lightgroups" ∨ s.showing = "Nothing" then g
      else (s.showing ++ " ") ++ g := by
  unfold soloLightgroup
  by_cases h : s.showing = "All lightgroups" ∨ s.showing = "Nothing"
  · rw [if_pos h, if_pos h]
    rfl
  · rw [if_neg h, if_neg h]
    rfl

/-- C8: with no connected input, `_get_all_layers` yields `None` (after
displaying a message, a UI effect outside the model) and
`update_light_group_mixer` then dies with an uncaught `TypeError` instead of
terminating gracefully. -/
theorem c8_disconnected_input_type_error (s : MixerState) :
    getAllLayers none = none ∧
    updateLightGroupMixer none s = Except.error PyError.typeError :=
  ⟨rfl, rfl⟩

/-- C9: `unsolo_lightgroup(g)` raises `ValueError` exactly when `g` is not one
of the whitespace-separated tokens of the Showing value; otherwise it succeeds
and the Showing value reflects the removal of one occurrence of `g`. -/
theorem c9_unsolo_value_error_iff (g : String) (s : MixerState) :
    (unsoloLightgroup g s = Except.error PyError.valueError ↔ g ∉ pySplit s.showing) ∧
    (g ∈ pySplit s.showing →
      ∃ s', unsoloLightgroup g s = Except.ok s' ∧
        s'.showing = (if (pySplit s.showing).erase g = [] then "All lightgroups"
                      else pyJoin ((pySplit s.showing).erase g))) := by
  constructor
  · constructor
    · intro h hmem
      unfold unsoloLightgroup at h
      rw [if_pos hmem] at h
      simp at h
    · intro hnm
      unfold unsoloLightgroup
      rw [if_neg hnm]
  · intro hmem
    simp only [unsoloLightgroup, if_pos hmem]
    exact ⟨_, rfl, rfl⟩

/-- C9 witness: unsoloing the token `a` out of the Showing value `"a b"`
succeeds and leaves `"b"`. -/
theorem c9_witness :
    ∃ s', unsoloLightgroup "a" c9state = Except.ok s' ∧
      s'.showing = (if (pySplit c9state.showing).erase "a" = [] then "All lightgroups"
                    else pyJoin ((pySplit c9state.showing).erase "a")) :=
  (c9_unsolo_value_error_iff "a" c9state).2 (by decide)

/-- C10: when the Showing value is `"All lightgroups"` or `"Nothing"`,
`reset_solos` leaves every node's disable knob (indeed the whole node list and
the knob list) unchanged; in the `"Nothing"` branch it only rewrites the
Showing value to `"All lightgroups"` before returning. -/
theorem c10_reset_solos_frame (s : MixerState)
    (h : s.showing = "All lightgroups" ∨ s.showing = "Nothing") :
    ∃ s', resetSolos s = Except.ok s' ∧ s'.nodes = s.nodes ∧ s'.knobs = s.knobs ∧
      (s.showing = "Nothing" → s'.showing = "All lightgroups") := by
  rcases h with h | h
  · refine ⟨s, ?_, rfl, rfl, ?_⟩
    · unfold resetSolos
      rw [if_pos h]
    · intro h2
      exact absurd (h.symm.trans h2) (by decide)
  · have hne : ¬(s.showing = "All lightgroups") := by
      rw [h]
      decide
    refine ⟨{ s with showing := "All lightgroups" }, ?_, rfl, rfl, fun _ => rfl⟩
    unfold resetSolos
    rw [if_neg hne, if_pos h]

/-- C10 witness: a disabled grader stays disabled when `reset_solos` runs on a
Showing value of `"Nothing"`. -/
theorem c10_witness :
    ∃ s', resetSolos c10state = Except.ok s' ∧ s'.nodes = c10state.nodes ∧
      s'.knobs = c10state.knobs ∧
      (c10state.showing = "Nothing" → s'.showing = "All lightgroups") :=
  c10_reset_solos_frame c10state (Or.inr rfl)

/-- C1 (failing input): with upstream channels carrying only the group `LG_A`
and a mixer still holding the tab and grader node of the stale group `LG_AB`,
`update_light_group_mixer` keeps every `LG_AB` knob and the `LG_AB` grader
node, because each `LG_AB*` knob name starts with the discovered group name
`LG_A` — even though `LG_AB` is not among the discovered lightgroups. -/
theorem c1_prefix_shadowing_keeps_stale_group :
    ∃ s1, updateLightGroupMixer (some ["LG_A.red"]) c1state = Except.ok s1 ∧
      "LG_AB_tab_end" ∈ s1.knobs ∧
      "LG_AB" ∈ s1.nodes.map GNode.name ∧
      "LG_AB" ∉ (getLightgroups c1state.knobs ((["LG_A.red"].map beforeDot).dedup)).1 := by
  refine ⟨_, rfl, ?_, ?_, ?_⟩ <;> decide

/-- C2 (counterexample): soloing `LG_AB` while the mixer holds the grader node
`LG_A` ends with the `LG_A` node enabled, although `LG_A` is not one of the
space-separated group names of the Showing value — the substring test in
`_set_solos` matches `LG_A` inside `LG_AB`. -/
theorem c2_substring_match_enables_non_soloed :
    (soloLightgroup "LG_AB" c2state).showing = "LG_AB" ∧
    "LG_A" ∉ pySplit (soloLightgroup "LG_AB" c2state).showing ∧
    (soloLightgroup "LG_AB" c2state).showing ≠ "All lightgroups" ∧
    (soloLightgroup "LG_AB" c2state).nodes.map GNode.cls = [LIGHTGROUP_GRADE_GIZMO_NAME] ∧
    (soloLightgroup "LG_AB" c2state).nodes.map GNode.name = ["LG_A"] ∧
    (soloLightgroup "LG_AB" c2state).nodes.map GNode.disable = [false] := by
  refine ⟨rfl, ?_, ?_, rfl, rfl, rfl⟩ <;> decide

/-- C2 (amended): after any `solo_lightgroup` call or successful
`unsolo_lightgroup` call, a LightGroupGrade node's disable knob is `False`
exactly when the Showing value is `"All lightgroups"` or the node's name
occurs as a substring (Python `in`) of the Showing value, and `True`
otherwise. -/
theorem c2_amended_substring_solo_semantics (g : String) (s : MixerState) :
    (∀ n ∈ (soloLightgroup g s).nodes, n.cls = LIGHTGROUP_GRADE_GIZMO_NAME →
      (n.disable = false ↔
        ((soloLightgroup g s).showing = "All lightgroups" ∨
         strIn n.name (soloLightgroup g s).showing = true))) ∧
    (∀ s', unsoloLightgroup g s = Except.ok s' →
      ∀ n ∈ s'.nodes, n.cls = LIGHTGROUP_GRADE_GIZMO_NAME →
        (n.disable = false ↔
          (s'.showing = "All lightgroups" ∨ strIn n.name s'.showing = true))) := by
  constructor
  · exact fun n hn hcls =>
      setSolos_disable
        (if s.showing = "All lightgroups" ∨ s.showing = "Nothing"
         then { s with showing := g }
         else { s with showing := (s.showing ++ " ") ++ g }) n hn hcls
  · intro s' h'
    unfold unsoloLightgroup at h'
    by_cases hmem : g ∈ pySplit s.showing
    · rw [if_pos hmem] at h'
      injection h' with h''
      subst h''
      exact fun n hn hcls => setSolos_disable
        { s with showing := (if (pySplit s.showing).erase g = [] then "All lightgroups"
                             else pyJoin ((pySplit s.showing).erase g)) } n hn hcls
    · rw [if_neg hmem] at h'
      simp at h'

/-- C2 witness: the enabled-iff-substring characterisation evaluated after
soloing `LG_AB` over the single grader node `LG_A`. -/
theorem c2_amended_witness :
    ((soloLightgroup "LG_AB" c2state).nodes.getD 0 gnodeDefault).disable = false := by
  have h := (c2_amended_substring_solo_semantics "LG_AB" c2state).1
      ((soloLightgroup "LG_AB" c2state).nodes.getD 0 gnodeDefault)
      (by decide) (by decide)
  exact h.mpr (Or.inr (by decide))

/-- C4 (counterexample): a layer whose name contains `LG_` beyond its leading
prefix is rebuilt by every run: the first run on `LG_aLG_b.red` creates one
grader node, the second run on the identical channels creates another one. -/
theorem c4_not_idempotent_on_inner_prefix_layer :
    ∃ s1 s2, updateLightGroupMixer (some ["LG_aLG_b.red"]) s0demo = Except.ok s1 ∧
      updateLightGroupMixer (some ["LG_aLG_b.red"]) s1 = Except.ok s2 ∧
      s1.nodes.length = 1 ∧ s2.nodes.length = 2 := by
  refine ⟨_, _, rfl, rfl, ?_, ?_⟩ <;> decide

/-- C7 (counterexample): with Showing value `"a b"`, soloing `a` and then
unsoloing `a` ends at `"b a"`, not back at `"a b"`: `list.remove` deletes the
first occurrence of `a`, which reorders the remaining tokens. -/
theorem c7_roundtrip_counterexample :
    c7state.showing = "a b" ∧
    (unsoloLightgroup "a" (soloLightgroup "a" c7state)).toOption.map MixerState.showing
      = some "b a" ∧
    ("b a" : String) ≠ "a b" := by
  refine ⟨rfl, ?_, ?_⟩ <;> decide

/-- C7 (amended): `solo_lightgroup(g)` followed by `unsolo_lightgroup(g)`
restores the Showing value `v` — with `"Nothing"` ending at
`"All lightgroups"` as the claim says — provided `g` is a nonempty
whitespace-free token and `v` is `"All lightgroups"`, `"Nothing"`, or a
whitespace-canonical value (`v == " ".join(v.split())`) with at least one
token that does not already list `g`.  (The counterexample shows the claim
fails without these provisos: removing the first occurrence of `g` can
reorder the tokens.) -/
theorem c7_amended_roundtrip (v g : String) (s : MixerState)
    (hs : s.showing = v)
    (hg1 : g ≠ "") (hg2 : ∀ c ∈ g.data, c.isWhitespace = false)
    (hv : v = "Nothing" ∨ v = "All lightgroups" ∨
      (pyJoin (pySplit v) = v ∧ pySplit v ≠ [] ∧ g ∉ pySplit v)) :
    ∃ s', unsoloLightgroup g (soloLightgroup g s) = Except.ok s' ∧
      s'.showing = (if v = "Nothing" then "All lightgroups" else v) := by
  subst hs
  by_cases hb : s.showing = "All lightgroups" ∨ s.showing = "Nothing"
  · have hsolo : soloLightgroup g s = setSolos { s with showing := g } := by
      unfold soloLightgroup
      rw [if_pos hb]
    have hshow : (setSolos { s with showing := g }).showing = g := rfl
    have hsp : pySplit (setSolos { s with showing := g }).showing = [g] := by
      rw [hshow]
      exact pySplit_single g hg1 hg2
    have hmem : g ∈ pySplit (setSolos { s with showing := g }).showing := by
      rw [hsp]
      exact List.mem_cons_self g []
    have herase : (pySplit (setSolos { s with showing := g }).showing).erase g = [] := by
      rw [hsp]
      exact List.erase_cons_head g []
    refine ⟨setSolos { (setSolos { s with showing := g }) with
        showing := "All lightgroups" }, ?_, ?_⟩
    · rw [hsolo]
      unfold unsoloLightgroup
      rw [if_pos hmem, herase]
      rfl
    · show "All lightgroups" = _
      rcases hb with hb | hb
      · rw [if_neg ?_]
        · exact hb.symm
        · rw [hb]
          decide
      · rw [if_pos hb]
  · push_neg at hb
    rcases hv with h | h | h
    · exact absurd h hb.2
    · exact absurd h hb.1
    · obtain ⟨hjoin, hne, hnotmem⟩ := h
      have hb' : ¬(s.showing = "All lightgroups" ∨ s.showing = "Nothing") := by
        push_neg
        exact hb
      have hsolo : soloLightgroup g s
          = setSolos { s with showing := (s.showing ++ " ") ++ g } := by
        unfold soloLightgroup
        rw [if_neg hb']
      have hsp : pySplit (setSolos { s with showing := (s.showing ++ " ") ++ g }).showing
          = pySplit s.showing ++ [g] := pySplit_append_word s.showing g hg1 hg2
      have hmem : g ∈ pySplit (setSolos
          { s with showing := (s.showing ++ " ") ++ g }).showing := by
        rw [hsp]
        exact List.mem_append_right _ (List.mem_singleton.mpr rfl)
      have herase : (pySplit (setSolos
          { s with showing := (s.showing ++ " ") ++ g }).showing).erase g
          = pySplit s.showing := by
        rw [hsp, List.erase_append_right [g] hnotmem, List.erase_cons_head,
          List.append_nil]
      refine ⟨setSolos { (setSolos { s with showing := (s.showing ++ " ") ++ g }) with
          showing := pyJoin (pySplit s.showing) }, ?_, ?_⟩
      · rw [hsolo]
        unfold unsoloLightgroup
        rw [if_pos hmem, herase, if_neg hne]
      · show pyJoin (pySplit s.showing) = _
        rw [hjoin, if_neg hb.2]

/-- C7 witness: the round trip evaluated at Showing value `"LG_a LG_b"` and
fresh group `LG_c`. -/
theorem c7_amended_witness :
    ∃ s', unsoloLightgroup "LG_c"
        (soloLightgroup "LG_c" { s0demo with showing := "LG_a LG_b" }) = Except.ok s' ∧
      s'.showing = (if ("LG_a LG_b" : String) = "Nothing" then "All lightgroups"
                    else "LG_a LG_b") :=
  c7_amended_roundtrip "LG_a LG_b" "LG_c" { s0demo with showing := "LG_a LG_b" } rfl
    (by decide) (by decide) (Or.inr (Or.inr ⟨by decide, by decide, by decide⟩))

/-- The knob list after `_add_lightgroups`: the old knobs followed by the tab
knobs of every built lightgroup. -/
lemma addLightgroups_knobs (l : List String) (next : NRef) (s : MixerState) :
    (addLightgroups l next s).knobs
      = s.knobs ++ (l.map fun g => menuTabKnobs g (beforeDot g)).flatten := by
  rw [addLightgroups_eq]

/-- `_remove_lightgroupgrade_nodes` with an empty removal list changes
nothing. -/
lemma removeNodes_nil (s : MixerState) : removeLightgroupgradeNodes s [] = s := by
  unfold removeLightgroupgradeNodes
  have hfilter : s.nodes.filter (fun n => !(n.cls == LIGHTGROUP_GRADE_GIZMO_NAME
      && List.contains [] n.name)) = s.nodes := by
    refine List.filter_eq_self.mpr ?_
    intro a _
    simp
  rw [hfilter]

/-- C4 (amended): `update_light_group_mixer` is idempotent on the node and
knob state provided every discovered lightgroup layer contains `LG_` only as
its leading prefix (equivalently, `"LG_" + layer.split("LG_")[1]` equals the
layer, so the tab knob created for the layer is named `<layer>_tab_begin`):
a second run on the same upstream channels then creates no grader node,
creates no knob and removes nothing.  (The counterexample shows the proviso is
needed: a layer such as `LG_aLG_b` is rebuilt on every run.) -/
theorem c4_amended_idempotent (chans : List String) (s s1 : MixerState)
    (hLG : ∀ l ∈ (chans.map beforeDot).dedup,
      startsWithStr l LIGHTGROUP_PREFIX_STR = true →
      LIGHTGROUP_PREFIX_STR ++ lgName l = l)
    (h1 : updateLightGroupMixer (some chans) s = Except.ok s1) :
    ∃ s2, updateLightGroupMixer (some chans) s1 = Except.ok s2 ∧
      s2.knobs = s1.knobs ∧ s2.nodes = s1.nodes := by
  set layers := (chans.map beforeDot).dedup with hlayers
  set sA := addLightgroups (getLightgroups s.knobs layers).2 (getNextNodeToConnectTo s) s
    with hsA
  set rm := getOldUnusedLightgroups sA.knobs (getLightgroups s.knobs layers).1 with hrm
  set sB := removeLightgroupgradeNodes { sA with knobs := rm.2 } rm.1 with hsB
  have h1' : resetSolos sB = Except.ok s1 := h1
  have hBknobs : sB.knobs
      = sA.knobs.filter (keepKnobB (getLightgroups s.knobs layers).1) := by
    rw [hsB, removeNodes_knobs]
    show rm.2 = _
    rw [hrm]
    exact getOldUnused_snd _ sA.knobs
  have hpost := resetSolos_post sB s1 h1'
  have hknobs1 : s1.knobs
      = sA.knobs.filter (keepKnobB (getLightgroups s.knobs layers).1) :=
    hpost.1.trans hBknobs
  have hall : (getLightgroups s.knobs layers).1
      = layers.filter (fun l => startsWithStr l LIGHTGROUP_PREFIX_STR) := by
    rw [getLightgroups_eq]
  have htb : (getLightgroups s.knobs layers).2
      = layers.filter (fun l => startsWithStr l LIGHTGROUP_PREFIX_STR
          && !(s.knobs.contains (l ++ "_tab_begin"))) := by
    rw [getLightgroups_eq]
  have htab : ∀ l ∈ (getLightgroups s.knobs layers).1,
      (l ++ "_tab_begin") ∈ s1.knobs := by
    intro l hl
    rw [hall, List.mem_filter] at hl
    obtain ⟨hlay, hpre⟩ := hl
    rw [hknobs1, List.mem_filter]
    constructor
    · rw [hsA, addLightgroups_knobs]
      cases hc : s.knobs.contains (l ++ "_tab_begin") with
      | true => exact List.mem_append_left _ ((List.elem_iff).mp hc)
      | false =>
        refine List.mem_append_right _ ?_
        have hbuild : l ∈ (getLightgroups s.knobs layers).2 := by
          rw [htb, List.mem_filter]
          refine ⟨hlay, ?_⟩
          rw [hpre, hc]
          rfl
        rw [List.mem_flatten]
        refine ⟨menuTabKnobs l (beforeDot l), List.mem_map_of_mem _ hbuild, ?_⟩
        have hl2 : LIGHTGROUP_PREFIX_STR ++ lgName l = l := hLG l hlay hpre
        unfold menuTabKnobs
        rw [hl2]
        exact List.mem_cons_self _ _
    · unfold keepKnobB
      have hx1 : startsWithStr (l ++ "_tab_begin") LIGHTGROUP_PREFIX_STR = true :=
        startsWithStr_append_of l "_tab_begin" _ hpre
      have hx2 : ((getLightgroups s.knobs layers).1.any
          fun g => startsWithStr (l ++ "_tab_begin") g) = true := by
        rw [List.any_eq_true]
        refine ⟨l, ?_, startsWithStr_append_self l "_tab_begin"⟩
        rw [hall, List.mem_filter]
        exact ⟨hlay, hpre⟩
      rw [hx1, hx2]
      rfl
  have hkeep1 : ∀ k ∈ s1.knobs,
      keepKnobB (getLightgroups s.knobs layers).1 k = true := by
    intro k hk
    rw [hknobs1, List.mem_filter] at hk
    exact hk.2
  have hall2 : (getLightgroups s1.knobs layers).1 = (getLightgroups s.knobs layers).1 := by
    rw [hall, getLightgroups_eq]
  have hbuild2 : (getLightgroups s1.knobs layers).2 = [] := by
    rw [getLightgroups_eq]
    refine List.filter_eq_nil_iff.mpr ?_
    intro l hlay hp
    rw [Bool.and_eq_true] at hp
    have hpre := hp.1
    have hnot := hp.2
    have hmem := htab l (by rw [hall, List.mem_filter]; exact ⟨hlay, hpre⟩)
    have hcon : s1.knobs.contains (l ++ "_tab_begin") = true := (List.elem_iff).mpr hmem
    rw [hcon] at hnot
    exact absurd hnot (by simp)
  have hsA2 : addLightgroups (getLightgroups s1.knobs layers).2
      (getNextNodeToConnectTo s1) s1
      = { s1 with output1Input := getNextNodeToConnectTo s1 } := by
    rw [hbuild2]
    rfl
  have hrm2 : getOldUnusedLightgroups
      ({ s1 with output1Input := getNextNodeToConnectTo s1 } : MixerState).knobs
      (getLightgroups s1.knobs layers).1 = ([], s1.knobs) := by
    show getOldUnusedLightgroups s1.knobs (getLightgroups s1.knobs layers).1
      = ([], s1.knobs)
    rw [hall2]
    exact getOldUnused_keep_all _ s1.knobs hkeep1
  have hrun2 : updateLightGroupMixer (some chans) s1
      = resetSolos { s1 with output1Input := getNextNodeToConnectTo s1 } := by
    have hstep : updateLightGroupMixer (some chans) s1
        = resetSolos (removeLightgroupgradeNodes
            { s1 with output1Input := getNextNodeToConnectTo s1 } []) := by
      show updateLayers layers s1 = _
      unfold updateLayers
      rw [hsA2, hrm2]
    rw [hstep, removeNodes_nil]
  rcases hpost.2 with hsh | hother
  · refine ⟨{ s1 with output1Input := getNextNodeToConnectTo s1 }, ?_, rfl, rfl⟩
    rw [hrun2]
    unfold resetSolos
    rw [if_pos (show ({ s1 with output1Input := getNextNodeToConnectTo s1 }
      : MixerState).showing = "All lightgroups" from hsh)]
  · obtain ⟨hempty, hne1, hne2⟩ := hother
    refine ⟨{ s1 with output1Input := getNextNodeToConnectTo s1 }, ?_, rfl, rfl⟩
    rw [hrun2]
    unfold resetSolos
    rw [if_neg (show ¬(({ s1 with output1Input := getNextNodeToConnectTo s1 }
          : MixerState).showing = "All lightgroups") from hne1),
        if_neg (show ¬(({ s1 with output1Input := getNextNodeToConnectTo s1 }
          : MixerState).showing = "Nothing") from hne2),
        show pySplit ({ s1 with output1Input := getNextNodeToConnectTo s1 }
          : MixerState).showing = ([] : List String) from hempty,
        List.foldlM_nil]
    rfl

/-- C4 witness: a second run on channels `["LG_key.red"]` over the state the
first run reaches from an empty mixer changes neither the knobs nor the
nodes. -/
theorem c4_amended_witness :
    ∃ s2, updateLightGroupMixer (some ["LG_key.red"]) s1demo = Except.ok s2 ∧
      s2.knobs = s1demo.knobs ∧ s2.nodes = s1demo.nodes :=
  c4_amended_idempotent ["LG_key.red"] s0demo s1demo (by decide) (by decide)
